import Mathlib

/-!
Shallow embedding of `send_alerts.py` (Vendor-Hygiene repository).

The script reads a CSV of flagged vendors and sends one templated SMTP
email per row, with a bounded retry loop, a dry-run mode, per-row
Sent/Skipped/Failed outcomes, running counters and exit codes.

Modelling conventions:
* a CSV row is an association list from column name to string value;
* Python truthiness of an optional string (`None` and `""` are falsy) is
  `truthy`;
* `string.Template.safe_substitute` is embedded by the one-pass scanner
  `scan` below, which follows CPython's template pattern
  `$$` (escape) / `$identifier` / `${identifier}` / invalid-`$`-left-verbatim,
  with unknown identifiers left verbatim (safe substitution never raises);
* the SMTP transport is an oracle `net : Nat → Except SmtpError Unit`
  giving the outcome of each numbered attempt; side effects of
  `send_email` (attempts made, sleeps between them) are recorded as an
  event trace;
* `sys.exit(2)` before the row loop is the `RunOutcome.exited 2` result;
  a completed run is `RunOutcome.finished sent failed results code`.
-/

namespace SendAlerts

/-- A CSV row: mapping from column name to string value (`csv.DictReader` row). -/
abbrev Row := List (String × String)

/-- `row.get(k)`: `Some v` if the column is present, `none` otherwise. -/
def Row.get? (r : Row) (k : String) : Option String :=
  (r.find? (fun p => p.1 == k)).map (fun p => p.2)

/-- `row.get(k, d)`: the value of column `k`, or the default `d` when absent. -/
def Row.getD (r : Row) (k d : String) : String :=
  (Row.get? r k).getD d

/-- Python truthiness of an optional string: `None` and `""` are falsy. -/
def truthy : Option String → Bool
  | none => false
  | some s => !(s == "")

/-- Python `a or b` on optional strings: `a` if truthy, else `b`. -/
def orElsePy (a b : Option String) : Option String :=
  if truthy a then a else b

/-- The recipient actually used by the row loop:
`row.get(to_column) or row.get('email') or row.get('contact')`,
returned only when the chain's value is truthy (otherwise the row is skipped). -/
def resolvedRecipient (row : Row) (toCol : String) : Option String :=
  let t := orElsePy (orElsePy (Row.get? row toCol) (Row.get? row "email")) (Row.get? row "contact")
  if truthy t then t else none

/-- The spec's wording of recipient resolution: the first non-empty value among
`row[toColumn]`, `row["email"]`, `row["contact"]`, in that order. -/
def specRecipient (row : Row) (toCol : String) : Option String :=
  ([Row.get? row toCol, Row.get? row "email", Row.get? row "contact"].filterMap id).find?
    (fun s => !(s == ""))

/-- The template-variable dictionary built for each row
(`vars = {'vendor': ..., 'score': ..., ...}`): exactly the six fixed keys. -/
def varsOf (row : Row) (vendorCol : String) : String → Option String := fun k =>
  if k == "vendor" then some (Row.getD row vendorCol "Unknown Vendor")
  else if k == "score" then some (Row.getD row "score" "")
  else if k == "avg_delivery_lag" then some (Row.getD row "avg_delivery_lag" "")
  else if k == "late_po_pct" then some (Row.getD row "late_po_pct" "")
  else if k == "price_cv" then some (Row.getD row "price_cv" "")
  else if k == "flag" then some (Row.getD row "flag" "")
  else none

/-- The subject f-string:
`f"Action Required Vendor Performance {vendor} Flag {vars.get('flag')}"`. -/
def subjectOf (row : Row) (vendorCol : String) : String :=
  "Action Required Vendor Performance " ++ Row.getD row vendorCol "Unknown Vendor"
    ++ " Flag " ++ ((varsOf row vendorCol) "flag").getD ""

/-! ## `string.Template.safe_substitute` -/

/-- First character of a template identifier: ASCII letter or underscore. -/
def isIdStart (c : Char) : Bool := c.isAlpha || c == '_'

/-- Later character of a template identifier: ASCII letter, digit or underscore. -/
def isIdChar (c : Char) : Bool := c.isAlpha || c.isDigit || c == '_'

/-- Scanner state: in plain text, just after `$`, inside `$ident`,
just after `${`, or inside `${ident`. -/
inductive Mode where
  | norm : Mode
  | dollar : Mode
  | ident : List Char → Mode
  | braceStart : Mode
  | braceIdent : List Char → Mode

/-- Emit a completed `$ident`: the mapping's value, or the placeholder verbatim. -/
def emitIdent (m : String → Option String) (acc : List Char) : List Char :=
  match m (String.mk acc) with
  | some v => v.data
  | none => '$' :: acc

/-- One-pass scanner for `Template.safe_substitute` over CPython's default
pattern: `$$` emits `$`; `$ident` and `\x7bident\x7d`-braced forms substitute known
identifiers and stay verbatim for unknown ones; an invalid `$` is emitted as
is and scanning resumes at the next character. Substituted values are not
rescanned. -/
def scan (m : String → Option String) : Mode → List Char → List Char
  | Mode.norm, [] => []
  | Mode.dollar, [] => ['$']
  | Mode.ident acc, [] => emitIdent m acc
  | Mode.braceStart, [] => ['$', '{']
  | Mode.braceIdent acc, [] => '$' :: '{' :: acc
  | Mode.norm, c :: rest =>
      if c == '$' then scan m Mode.dollar rest
      else c :: scan m Mode.norm rest
  | Mode.dollar, c :: rest =>
      if c == '$' then '$' :: scan m Mode.norm rest
      else if c == '{' then scan m Mode.braceStart rest
      else if isIdStart c then scan m (Mode.ident [c]) rest
      else '$' :: c :: scan m Mode.norm rest
  | Mode.ident acc, c :: rest =>
      if isIdChar c then scan m (Mode.ident (acc ++ [c])) rest
      else if c == '$' then emitIdent m acc ++ scan m Mode.dollar rest
      else emitIdent m acc ++ (c :: scan m Mode.norm rest)
  | Mode.braceStart, c :: rest =>
      if isIdStart c then scan m (Mode.braceIdent [c]) rest
      else if c == '$' then '$' :: '{' :: scan m Mode.dollar rest
      else '$' :: '{' :: c :: scan m Mode.norm rest
  | Mode.braceIdent acc, c :: rest =>
      if isIdChar c then scan m (Mode.braceIdent (acc ++ [c])) rest
      else if c == '}' then
        (match m (String.mk acc) with
         | some v => v.data ++ scan m Mode.norm rest
         | none => ('$' :: '{' :: acc) ++ ('}' :: scan m Mode.norm rest))
      else if c == '$' then ('$' :: '{' :: acc) ++ scan m Mode.dollar rest
      else ('$' :: '{' :: acc) ++ (c :: scan m Mode.norm rest)

/-- The scanner's state transition on one consumed character; `scan`'s
recursive calls follow exactly these transitions (they do not depend on the
mapping). -/
def stepMode : Mode → Char → Mode
  | Mode.norm, c => if c == '$' then Mode.dollar else Mode.norm
  | Mode.dollar, c =>
      if c == '$' then Mode.norm
      else if c == '{' then Mode.braceStart
      else if isIdStart c then Mode.ident [c]
      else Mode.norm
  | Mode.ident acc, c =>
      if isIdChar c then Mode.ident (acc ++ [c])
      else if c == '$' then Mode.dollar
      else Mode.norm
  | Mode.braceStart, c =>
      if isIdStart c then Mode.braceIdent [c]
      else if c == '$' then Mode.dollar
      else Mode.norm
  | Mode.braceIdent acc, c =>
      if isIdChar c then Mode.braceIdent (acc ++ [c])
      else if c == '}' then Mode.norm
      else if c == '$' then Mode.dollar
      else Mode.norm

/-- The scanner state after consuming a list of characters. A prefix whose
state is back to `norm` is self-contained: the scanner holds no pending
partial token at its end. -/
def scanState : Mode → List Char → Mode
  | mo, [] => mo
  | mo, c :: rest => scanState (stepMode mo c) rest

/-- `Template(tmpl).safe_substitute(m)`. -/
def safeSubstitute (m : String → Option String) (tmpl : String) : String :=
  String.mk (scan m Mode.norm tmpl.data)

/-- The rendered body: `template.safe_substitute(vars)`. -/
def bodyOf (row : Row) (vendorCol : String) (tmpl : String) : String :=
  safeSubstitute (varsOf row vendorCol) tmpl

/-- A built message: recipient, subject and body (spec §3 RenderedMessage). -/
structure RenderedMessage where
  recipient : String
  subject : String
  body : String
deriving DecidableEq, Repr

/-- Failure of the message builder: no resolvable recipient; the vendor name
is still carried (it is known for logging). -/
inductive BuildError where
  | MissingRecipient : String → BuildError
deriving DecidableEq, Repr

/-- The message-builder part of the row loop: resolve the recipient, the
vendor name, the subject and the substituted body; a row whose recipient
chain is falsy yields `MissingRecipient` with the resolved vendor name. -/
def build (tmpl : String) (row : Row) (toCol vendorCol : String) :
    Except BuildError RenderedMessage :=
  let vendor := Row.getD row vendorCol "Unknown Vendor"
  match resolvedRecipient row toCol with
  | some a => Except.ok ⟨a, subjectOf row vendorCol, bodyOf row vendorCol tmpl⟩
  | none => Except.error (BuildError.MissingRecipient vendor)

/-! ## Delivery engine (`send_email`) -/

/-- Expected failure modes of one SMTP attempt: connection, authentication
or transmission errors (all caught by the bare `except Exception`). -/
inductive SmtpError where
  | connect : SmtpError
  | auth : SmtpError
  | send : SmtpError
deriving DecidableEq, Repr

/-- Observable events of the delivery loop: a numbered attempt, and a sleep
of a given duration between attempts. -/
inductive Ev where
  | attempt : Nat → Ev
  | sleep : Nat → Ev
deriving DecidableEq, Repr

/-- `RETRY_COUNT = 3`. -/
def RETRY_COUNT : Nat := 3

/-- `RETRY_DELAY = 5` (seconds). -/
def RETRY_DELAY : Nat := 5

/-- `for attempt in range(1, RETRY_COUNT + 1)` body of `send_email`.
`net n` is the transport's outcome of attempt `n`; `rem` is the number of
loop iterations left (the Python loop runs `RETRY_COUNT` times), `att` the
current attempt number. `none` is Python's implicit `return None` after the
loop is exhausted (unreachable from the real entry point). On failure with
attempts remaining the loop sleeps `RETRY_DELAY` and retries; on the last
attempt it gives up and returns `False`. -/
def sendAttempts (net : Nat → Except SmtpError Unit) : Nat → Nat → Option Bool × List Ev
  | 0, _ => (none, [])
  | rem + 1, att =>
      match net att with
      | Except.ok _ => (some true, [Ev.attempt att])
      | Except.error _ =>
          if att < RETRY_COUNT then
            let r := sendAttempts net rem (att + 1)
            (r.1, Ev.attempt att :: Ev.sleep RETRY_DELAY :: r.2)
          else (some false, [Ev.attempt att])

/-- `send_email(...)`: run the attempt loop from attempt 1. The message
is fixed before the loop and does not influence control flow. -/
def send_email (_msg : RenderedMessage) (net : Nat → Except SmtpError Unit) :
    Option Bool × List Ev :=
  sendAttempts net RETRY_COUNT 1

/-- Per-message delivery outcome (spec §3 DeliveryResult). -/
inductive DeliveryResult where
  | Sent : DeliveryResult
  | Skipped : DeliveryResult
  | Failed : DeliveryResult
deriving DecidableEq, Repr

/-- `deliver(config, message)` for a message that has a recipient: in
dry-run mode no transport is touched and the row counts as Sent; otherwise
`send_email` runs and `if ok:` (Python truthiness, `None` falsy) decides
Sent vs Failed. -/
def deliver (dry : Bool) (msg : RenderedMessage) (net : Nat → Except SmtpError Unit) :
    DeliveryResult × List Ev :=
  if dry then (DeliveryResult.Sent, [])
  else
    let r := send_email msg net
    match r.1 with
    | some true => (DeliveryResult.Sent, r.2)
    | _ => (DeliveryResult.Failed, r.2)

/-! ## The row loop and `main` -/

/-- One iteration of the row loop: build the message; a missing recipient
skips the row (no transport events); otherwise deliver. -/
def processRow (dry : Bool) (net : Nat → Except SmtpError Unit)
    (tmpl toCol vendorCol : String) (row : Row) : DeliveryResult × List Ev :=
  match build tmpl row toCol vendorCol with
  | Except.error _ => (DeliveryResult.Skipped, [])
  | Except.ok msg => deliver dry msg net

/-- The whole row loop: `i` numbers the rows so `net i` is the transport
behavior seen by row `i`. Returns the final `sent` and `failed` counters
and the per-row (result, events) list, in input order. A `Sent` row
increments `sent`; `Skipped` and `Failed` rows increment `failed`. -/
def runRows (dry : Bool) (net : Nat → Nat → Except SmtpError Unit)
    (tmpl toCol vendorCol : String) : Nat → List Row → Nat × Nat × List (DeliveryResult × List Ev)
  | _, [] => (0, 0, [])
  | i, row :: rest =>
      let p := processRow dry (net i) tmpl toCol vendorCol row
      let r := runRows dry net tmpl toCol vendorCol (i + 1) rest
      match p.1 with
      | DeliveryResult.Sent => (r.1 + 1, r.2.1, p :: r.2.2)
      | DeliveryResult.Skipped => (r.1, r.2.1 + 1, p :: r.2.2)
      | DeliveryResult.Failed => (r.1, r.2.1 + 1, p :: r.2.2)

/-- The resolved startup state of one run: environment variables (`none`
when unset), CLI flags and paths (file existence abstracted to booleans),
the parsed input rows, the template text, and the transport oracle. -/
structure Config where
  smtp_host : Option String
  smtp_user : Option String
  smtp_pass : Option String
  dry_run_env : Option String
  dry_run_flag : Bool
  input_exists : Bool
  template_exists : Bool
  tmpl : String
  to_column : String
  vendor_column : String
  rows : List Row
  net : Nat → Nat → Except SmtpError Unit

/-- Python's `str.lower()` on the ASCII configuration values in play. -/
def lowerAscii (s : String) : String := String.mk (s.data.map Char.toLower)

/-- `dry_run = args.dry_run or os.getenv('DRY_RUN','').lower() in ('1','true','yes')`. -/
def dryRunOf (cfg : Config) : Bool :=
  cfg.dry_run_flag ||
    (let s := lowerAscii (cfg.dry_run_env.getD "")
     s == "1" || s == "true" || s == "yes")

/-- Outcome of a run: aborted by `sys.exit` before the row loop, or a
finished run with its counters, per-row results and final exit code. -/
inductive RunOutcome where
  | exited : Nat → RunOutcome
  | finished : Nat → Nat → List (DeliveryResult × List Ev) → Nat → RunOutcome

/-- `main()` after argument/environment resolution: the startup validation
(SMTP settings unless dry-run; input and template files), then the row
loop, the final report and the exit code ( 1 when any row failed or was
skipped, 0 otherwise). -/
def main (cfg : Config) : RunOutcome :=
  let dry := dryRunOf cfg
  if (!truthy cfg.smtp_host || !truthy cfg.smtp_user || !truthy cfg.smtp_pass) && !dry then
    RunOutcome.exited 2
  else if !cfg.input_exists then RunOutcome.exited 2
  else if !cfg.template_exists then RunOutcome.exited 2
  else
    let r := runRows dry cfg.net cfg.tmpl cfg.to_column cfg.vendor_column 0 cfg.rows
    RunOutcome.finished r.1 r.2.1 r.2.2 (if r.2.1 > 0 then 1 else 0)

/-! ## Concrete examples used to instantiate the theorems -/

/-- A transport that fails every attempt with a connection error. -/
def netFail : Nat → Nat → Except SmtpError Unit := fun _ _ => Except.error SmtpError.connect

/-- A sample row with a valid recipient, a vendor name and a flag. -/
def exRowA : Row := [("contact_email", "a@x"), ("vendor", "Acme"), ("flag", "RED")]

/-- A sample row whose recipient column is present but empty. -/
def exRowB : Row := [("contact_email", ""), ("vendor", "Beta")]

/-- A dry-run configuration over the two sample rows (the spec's
end-to-end example: row A valid recipient, row B empty recipient). -/
def exampleCfg : Config :=
  Config.mk none none none none true true true "t" "contact_email" "vendor"
    [exRowA, exRowB] netFail

/-- A non-dry-run configuration with all SMTP settings unset. -/
def exampleCfgNoSmtp : Config :=
  Config.mk none none none none false true true "t" "contact_email" "vendor" [] netFail

/-! ## Helper lemmas -/

/-- The Python truthiness-based `or` chain over three optional strings picks
exactly the first non-empty present value. -/
theorem pyChain_eq_firstNonEmpty (a b c : Option String) :
    (if truthy (orElsePy (orElsePy a b) c) then orElsePy (orElsePy a b) c else none)
      = ([a, b, c].filterMap id).find? (fun s => !(s == "")) := by
  rcases a with _ | sa <;> rcases b with _ | sb <;> rcases c with _ | sc <;>
    simp only [orElsePy, truthy, List.filterMap_cons, id, List.filterMap_nil, List.find?] <;>
    split_ifs <;> (repeat' split) <;> simp_all

/-- The recipient the row loop uses agrees with the spec's wording of the
resolution order. -/
theorem resolvedRecipient_eq_spec (row : Row) (toCol : String) :
    resolvedRecipient row toCol = specRecipient row toCol := by
  unfold resolvedRecipient specRecipient
  exact pyChain_eq_firstNonEmpty _ _ _

/-- Scanning a `$`-free text substitutes nothing. -/
theorem scan_norm_no_dollar (m : String → Option String) :
    ∀ l : List Char, '$' ∉ l → scan m Mode.norm l = l := by
  intro l h
  induction l with
  | nil => rfl
  | cons c rest ih =>
      have hc : ¬ c = '$' := by intro e; exact h (e ▸ List.mem_cons_self c rest)
      have hr : '$' ∉ rest := fun e => h (List.mem_cons_of_mem c e)
      simp [scan, hc, ih hr, beq_iff_eq]

/-- Scanning splits at any self-contained prefix: when a prefix brings the
scanner state back to `norm`, the scan of the whole text is the scan of the
prefix followed by the scan of the remainder. -/
theorem scan_append_of_state_norm (m : String → Option String) (rest : List Char) :
    ∀ (l : List Char) (mo : Mode), scanState mo l = Mode.norm →
      scan m mo (l ++ rest) = scan m mo l ++ scan m Mode.norm rest := by
  intro l
  induction l with
  | nil =>
      intro mo h
      cases mo with
      | norm => simp [scan]
      | dollar => exact Mode.noConfusion h
      | ident acc => exact Mode.noConfusion h
      | braceStart => exact Mode.noConfusion h
      | braceIdent acc => exact Mode.noConfusion h
  | cons c l' ih =>
      intro mo h
      have h' : scanState (stepMode mo c) l' = Mode.norm := h
      cases mo with
      | norm =>
          by_cases hc : (c == '$') = true
          · rw [show stepMode Mode.norm c = Mode.dollar by simp [stepMode, hc]] at h'
            simpa [scan, hc] using ih Mode.dollar h'
          · rw [show stepMode Mode.norm c = Mode.norm by
              simp [stepMode, Bool.not_eq_true _ ▸ hc]] at h'
            simp [scan, hc, ih Mode.norm h']
      | dollar =>
          by_cases hc : (c == '$') = true
          · rw [show stepMode Mode.dollar c = Mode.norm by simp [stepMode, hc]] at h'
            simp [scan, hc, ih Mode.norm h']
          · by_cases hb : (c == '{') = true
            · rw [show stepMode Mode.dollar c = Mode.braceStart by
                simp [stepMode, hc, hb]] at h'
              simpa [scan, hc, hb] using ih Mode.braceStart h'
            · by_cases hi : isIdStart c = true
              · rw [show stepMode Mode.dollar c = Mode.ident [c] by
                  simp [stepMode, hc, hb, hi]] at h'
                simpa [scan, hc, hb, hi] using ih (Mode.ident [c]) h'
              · rw [show stepMode Mode.dollar c = Mode.norm by
                  simp [stepMode, hc, hb, hi]] at h'
                simp [scan, hc, hb, hi, ih Mode.norm h']
      | ident acc =>
          by_cases hi : isIdChar c = true
          · rw [show stepMode (Mode.ident acc) c = Mode.ident (acc ++ [c]) by
              simp [stepMode, hi]] at h'
            simpa [scan, hi] using ih (Mode.ident (acc ++ [c])) h'
          · by_cases hc : (c == '$') = true
            · rw [show stepMode (Mode.ident acc) c = Mode.dollar by
                simp [stepMode, hi, hc]] at h'
              simp [scan, hi, hc, ih Mode.dollar h']
            · rw [show stepMode (Mode.ident acc) c = Mode.norm by
                simp [stepMode, hi, hc]] at h'
              simp [scan, hi, hc, ih Mode.norm h']
      | braceStart =>
          by_cases hi : isIdStart c = true
          · rw [show stepMode Mode.braceStart c = Mode.braceIdent [c] by
              simp [stepMode, hi]] at h'
            simpa [scan, hi] using ih (Mode.braceIdent [c]) h'
          · by_cases hc : (c == '$') = true
            · rw [show stepMode Mode.braceStart c = Mode.dollar by
                simp [stepMode, hi, hc]] at h'
              simp [scan, hi, hc, ih Mode.dollar h']
            · rw [show stepMode Mode.braceStart c = Mode.norm by
                simp [stepMode, hi, hc]] at h'
              simp [scan, hi, hc, ih Mode.norm h']
      | braceIdent acc =>
          by_cases hi : isIdChar c = true
          · rw [show stepMode (Mode.braceIdent acc) c = Mode.braceIdent (acc ++ [c]) by
              simp [stepMode, hi]] at h'
            simpa [scan, hi] using ih (Mode.braceIdent (acc ++ [c])) h'
          · by_cases hb : (c == '}') = true
            · rw [show stepMode (Mode.braceIdent acc) c = Mode.norm by
                simp [stepMode, hi, hb]] at h'
              rcases hmk : m (String.mk acc) with _ | v <;>
                simp [scan, hi, hb, hmk, ih Mode.norm h']
            · by_cases hc : (c == '$') = true
              · rw [show stepMode (Mode.braceIdent acc) c = Mode.dollar by
                  simp [stepMode, hi, hb, hc]] at h'
                simp [scan, hi, hb, hc, ih Mode.dollar h']
              · rw [show stepMode (Mode.braceIdent acc) c = Mode.norm by
                  simp [stepMode, hi, hb, hc]] at h'
                simp [scan, hi, hb, hc, ih Mode.norm h']

/-- Inside a `$ident` placeholder whose full identifier is unknown to the
mapping, the scanner reproduces the placeholder verbatim and then resumes
normal scanning on any remainder that does not extend the identifier. -/
theorem scan_ident_run_ctx (m : String → Option String) :
    ∀ (cs acc post : List Char), (∀ x ∈ cs, isIdChar x = true) →
      m (String.mk (acc ++ cs)) = none →
      (∀ p0 tl, post = p0 :: tl → isIdChar p0 = false) →
      scan m (Mode.ident acc) (cs ++ post)
        = ('$' :: (acc ++ cs)) ++ scan m Mode.norm post := by
  intro cs
  induction cs with
  | nil =>
      intro acc post _ hm hpost
      simp only [List.append_nil] at hm
      cases post with
      | nil => simp [scan, emitIdent, hm]
      | cons p0 tl =>
          have hni : isIdChar p0 = false := hpost p0 tl rfl
          by_cases hc : (p0 == '$') = true
          · simp [scan, hni, hc, emitIdent, hm]
          · simp [scan, hni, hc, emitIdent, hm]
  | cons c rest ih =>
      intro acc post hall hm hpost
      have hc : isIdChar c = true := hall c (List.mem_cons_self c rest)
      have hrest : ∀ x ∈ rest, isIdChar x = true :=
        fun x hx => hall x (List.mem_cons_of_mem c hx)
      have hm' : m (String.mk ((acc ++ [c]) ++ rest)) = none := by
        simpa [List.append_assoc] using hm
      simpa [List.append_assoc] using
        (by simp [scan, hc, ih (acc ++ [c]) post hrest hm' hpost] :
          scan m (Mode.ident acc) ((c :: rest) ++ post)
            = ('$' :: ((acc ++ [c]) ++ rest)) ++ scan m Mode.norm post)

/-- An identifier-start character is not the delimiter. -/
theorem isIdStart_ne_dollar {c : Char} (h : isIdStart c = true) : ¬ c = '$' := by
  intro e; subst e; simp [isIdStart, Char.isAlpha, Char.isUpper, Char.isLower] at h

/-- An identifier-start character is not an opening brace. -/
theorem isIdStart_ne_brace {c : Char} (h : isIdStart c = true) : ¬ c = '{' := by
  intro e; subst e; simp [isIdStart, Char.isAlpha, Char.isUpper, Char.isLower] at h

/-- A `$ident` placeholder occurrence anywhere in a template — after any
self-contained prefix and before any remainder that does not extend the
identifier — is left verbatim when the identifier is unknown, while the
rest of the template renders as usual. -/
theorem scan_tolerant_ctx (m : String → Option String) (pre post : List Char)
    (c : Char) (cs : List Char)
    (hpre : scanState Mode.norm pre = Mode.norm)
    (h1 : isIdStart c = true) (h2 : ∀ x ∈ cs, isIdChar x = true)
    (hpost : ∀ p0 tl, post = p0 :: tl → isIdChar p0 = false)
    (hm : m (String.mk (c :: cs)) = none) :
    scan m Mode.norm (pre ++ ('$' :: c :: cs) ++ post)
      = scan m Mode.norm pre ++ ('$' :: c :: cs) ++ scan m Mode.norm post := by
  have hc := isIdStart_ne_dollar h1
  have hb := isIdStart_ne_brace h1
  have hrun : scan m (Mode.ident [c]) (cs ++ post)
      = ('$' :: ([c] ++ cs)) ++ scan m Mode.norm post :=
    scan_ident_run_ctx m cs [c] post h2 (by simpa using hm) hpost
  rw [List.append_assoc,
    scan_append_of_state_norm m (('$' :: c :: cs) ++ post) pre Mode.norm hpre]
  simp [scan, hc, hb, h1, hrun, beq_iff_eq, List.append_assoc]

/-- The attempt loop always terminates with a definite boolean outcome when
started within its bounds: no expected error escapes it. -/
theorem sendAttempts_isSome (net : Nat → Except SmtpError Unit) :
    ∀ (rem att : Nat), att ≤ RETRY_COUNT → RETRY_COUNT + 1 ≤ att + rem →
      ((sendAttempts net rem att).1).isSome = true := by
  have hrc : RETRY_COUNT = 3 := rfl
  intro rem
  induction rem with
  | zero => intro att h1 h2; rw [hrc] at h1 h2; omega
  | succ rem ih =>
      intro att h1 h2
      cases hn : net att with
      | ok v => simp [sendAttempts, hn]
      | error e =>
          by_cases hlt : att < RETRY_COUNT
          · have ha1 : att + 1 ≤ RETRY_COUNT := hlt
            have ha2 : RETRY_COUNT + 1 ≤ (att + 1) + rem := by omega
            simp [sendAttempts, hn, hlt]
            exact ih (att + 1) ha1 ha2
          · simp [sendAttempts, hn, hlt]

/-- A result other than `Sent` is exactly `Skipped` or `Failed`. -/
theorem not_sent_iff (r : DeliveryResult) :
    ¬ r = DeliveryResult.Sent ↔ (r = DeliveryResult.Skipped ∨ r = DeliveryResult.Failed) := by
  cases r <;> simp

/-- Counter bookkeeping of the row loop: sent and failed sum to the number
of rows, one result is recorded per row, and the failed counter is zero
exactly when every recorded result is `Sent`. -/
theorem runRows_counters (dry : Bool) (net : Nat → Nat → Except SmtpError Unit)
    (tmpl toCol vendorCol : String) :
    ∀ (rows : List Row) (i : Nat),
      (runRows dry net tmpl toCol vendorCol i rows).1
          + (runRows dry net tmpl toCol vendorCol i rows).2.1 = rows.length ∧
      (runRows dry net tmpl toCol vendorCol i rows).2.2.length = rows.length ∧
      ((runRows dry net tmpl toCol vendorCol i rows).2.1 = 0 ↔
        ∀ p ∈ (runRows dry net tmpl toCol vendorCol i rows).2.2, p.1 = DeliveryResult.Sent) := by
  intro rows
  induction rows with
  | nil => intro i; simp [runRows]
  | cons row rest ih =>
      intro i
      obtain ⟨ih1, ih2, ih3⟩ := ih (i + 1)
      rcases hp : (processRow dry (net i) tmpl toCol vendorCol row).1 with _ | _ | _ <;>
        simp [runRows, hp, ih2, ih3] <;> omega

/-- In dry-run mode a row with a resolvable recipient is `Sent` and one
without is `Skipped`; no transport event occurs either way. -/
theorem processRow_dry (net : Nat → Except SmtpError Unit)
    (tmpl toCol vendorCol : String) (row : Row) :
    processRow true net tmpl toCol vendorCol row =
      (if (resolvedRecipient row toCol).isSome then (DeliveryResult.Sent, ([] : List Ev))
       else (DeliveryResult.Skipped, [])) := by
  unfold processRow build deliver
  rcases h : resolvedRecipient row toCol with _ | a <;> simp [h]

/-- The whole dry-run row loop: the sent counter counts the rows with a
resolvable recipient, the failed counter the others, and each row's
recorded result has an empty event list. -/
theorem runRows_dry (net : Nat → Nat → Except SmtpError Unit)
    (tmpl toCol vendorCol : String) :
    ∀ (rows : List Row) (i : Nat),
      runRows true net tmpl toCol vendorCol i rows =
        (rows.countP (fun row => (resolvedRecipient row toCol).isSome),
         rows.countP (fun row => !(resolvedRecipient row toCol).isSome),
         rows.map (fun row =>
           if (resolvedRecipient row toCol).isSome
           then (DeliveryResult.Sent, ([] : List Ev))
           else (DeliveryResult.Skipped, []))) := by
  intro rows
  induction rows with
  | nil => intro i; simp [runRows]
  | cons row rest ih =>
      intro i
      rcases h : resolvedRecipient row toCol with _ | a <;>
        simp [runRows, processRow_dry, h, ih (i + 1), List.countP_cons]

/-- A finished run is exactly the row loop's output, with the exit code
computed from the failed counter. -/
theorem main_finished_inv (cfg : Config) (s f : Nat)
    (rs : List (DeliveryResult × List Ev)) (c : Nat)
    (h : main cfg = RunOutcome.finished s f rs c) :
    runRows (dryRunOf cfg) cfg.net cfg.tmpl cfg.to_column cfg.vendor_column 0 cfg.rows
        = (s, f, rs)
      ∧ c = (if 0 < f then 1 else 0) := by
  simp only [main] at h
  split at h
  · exact RunOutcome.noConfusion h
  · split at h
    · exact RunOutcome.noConfusion h
    · split at h
      · exact RunOutcome.noConfusion h
      · injection h with h1 h2 h3 h4
        subst h1; subst h2; subst h3; subst h4
        exact ⟨rfl, rfl⟩

/-! ## Claim theorems -/

/-- Claim C1: for every message delivered with dryRun false against a
transport that fails on every attempt, delivery makes exactly 3 attempts,
sleeps the fixed 5-unit delay between consecutive attempts but not after
the final one, and returns Failed. -/
theorem claim_C1_retries_then_failed :
    ∀ (msg : RenderedMessage) (net : Nat → Except SmtpError Unit),
      (∀ n, ∃ e, net n = Except.error e) →
      deliver false msg net =
        (DeliveryResult.Failed,
          [Ev.attempt 1, Ev.sleep 5, Ev.attempt 2, Ev.sleep 5, Ev.attempt 3]) := by
  intro msg net h
  obtain ⟨e1, h1⟩ := h 1
  obtain ⟨e2, h2⟩ := h 2
  obtain ⟨e3, h3⟩ := h 3
  simp [deliver, send_email, sendAttempts, h1, h2, h3, RETRY_COUNT, RETRY_DELAY]

/-- Claim C1 witness: the always-failing transport at a concrete message. -/
theorem claim_C1_retries_then_failed_witness :
    deliver false (RenderedMessage.mk "a@x" "s" "b") (fun _ => Except.error SmtpError.connect)
      = (DeliveryResult.Failed,
          [Ev.attempt 1, Ev.sleep 5, Ev.attempt 2, Ev.sleep 5, Ev.attempt 3]) :=
  claim_C1_retries_then_failed (RenderedMessage.mk "a@x" "s" "b")
    (fun _ => Except.error SmtpError.connect) (fun _ => ⟨SmtpError.connect, rfl⟩)

/-- Claim C2: for every row the recipient used is the first non-empty value
among `row[toColumn]`, `row["email"]`, `row["contact"]` in that order, and
when none exists the builder fails with MissingRecipient carrying the still
resolved vendor name. -/
theorem claim_C2_recipient_resolution :
    ∀ (tmpl : String) (row : Row) (toCol vendorCol : String),
      (∀ m, build tmpl row toCol vendorCol = Except.ok m →
        specRecipient row toCol = some m.recipient) ∧
      (specRecipient row toCol = none →
        build tmpl row toCol vendorCol
          = Except.error (BuildError.MissingRecipient (Row.getD row vendorCol "Unknown Vendor"))) := by
  intro tmpl row toCol vendorCol
  constructor
  · intro m hm
    simp only [build] at hm
    rcases h : resolvedRecipient row toCol with _ | a
    · rw [h] at hm; exact Except.noConfusion hm
    · rw [h] at hm
      injection hm with hm'
      rw [← resolvedRecipient_eq_spec, h, ← hm']
  · intro hs
    have h := resolvedRecipient_eq_spec row toCol
    rw [hs] at h
    simp only [build, h]

/-- Claim C2 witness: a row resolving via the to-column, and the empty row
failing with MissingRecipient and the default vendor name. -/
theorem claim_C2_recipient_resolution_witness :
    specRecipient exRowA "contact_email" = some "a@x" ∧
    build "t" [] "contact_email" "vendor"
      = Except.error (BuildError.MissingRecipient "Unknown Vendor") :=
  ⟨(claim_C2_recipient_resolution "t" exRowA "contact_email" "vendor").1
      (RenderedMessage.mk "a@x" (subjectOf exRowA "vendor") (bodyOf exRowA "vendor" "t")) rfl,
    (claim_C2_recipient_resolution "t" [] "contact_email" "vendor").2 rfl⟩

/-- Claim C3: a row with no resolvable recipient is recorded as Skipped,
increments the failed counter by exactly one, and the loop continues with
the remaining rows. -/
theorem claim_C3_skip_continues :
    ∀ (dry : Bool) (net : Nat → Nat → Except SmtpError Unit)
      (tmpl toCol vendorCol : String) (i : Nat) (row : Row) (rest : List Row),
      resolvedRecipient row toCol = none →
      runRows dry net tmpl toCol vendorCol i (row :: rest)
        = ((runRows dry net tmpl toCol vendorCol (i + 1) rest).1,
           (runRows dry net tmpl toCol vendorCol (i + 1) rest).2.1 + 1,
           (DeliveryResult.Skipped, [])
             :: (runRows dry net tmpl toCol vendorCol (i + 1) rest).2.2) := by
  intro dry net tmpl toCol vendorCol i row rest h
  have hp : processRow dry (net i) tmpl toCol vendorCol row = (DeliveryResult.Skipped, []) := by
    simp [processRow, build, h]
  simp [runRows, hp]

/-- Claim C3 witness: an empty row followed by a deliverable row under dry
run: the empty row is Skipped with failed incremented, the rest still runs. -/
theorem claim_C3_skip_continues_witness :
    runRows true netFail "t" "contact_email" "vendor" 0 ([] :: [exRowA])
      = ((runRows true netFail "t" "contact_email" "vendor" 1 [exRowA]).1,
         (runRows true netFail "t" "contact_email" "vendor" 1 [exRowA]).2.1 + 1,
         (DeliveryResult.Skipped, [])
           :: (runRows true netFail "t" "contact_email" "vendor" 1 [exRowA]).2.2) :=
  claim_C3_skip_continues true netFail "t" "contact_email" "vendor" 0 [] [exRowA] rfl

/-- Claim C9: the delivery routine converts every expected per-attempt
error into a definite boolean outcome (never the loop's fall-through
`None`), and delivery ends in Sent or Failed, never an escaping error. -/
theorem claim_C9_no_raise :
    ∀ (msg : RenderedMessage) (net : Nat → Except SmtpError Unit),
      (∃ b, (send_email msg net).1 = some b) ∧
      ((deliver false msg net).1 = DeliveryResult.Sent ∨
        (deliver false msg net).1 = DeliveryResult.Failed) := by
  intro msg net
  have h := sendAttempts_isSome net RETRY_COUNT 1 (by decide) (by omega)
  constructor
  · exact Option.isSome_iff_exists.mp (by simpa [send_email] using h)
  · rcases h2 : (send_email msg net).1 with _ | b
    · simp [deliver, h2]
    · cases b <;> simp [deliver, h2]

/-- Claim C4: when dry-run is enabled (CLI flag or truthy DRY_RUN value),
no transport event occurs for any row, and the sent counter counts exactly
the rows with a resolvable recipient. -/
theorem claim_C4_dry_run :
    ∀ (cfg : Config) (s f : Nat) (rs : List (DeliveryResult × List Ev)) (c : Nat),
      dryRunOf cfg = true → main cfg = RunOutcome.finished s f rs c →
      (∀ p ∈ rs, p.2 = ([] : List Ev)) ∧
      s = cfg.rows.countP (fun row => (resolvedRecipient row cfg.to_column).isSome) := by
  intro cfg s f rs c hdry hm
  obtain ⟨hr, -⟩ := main_finished_inv cfg s f rs c hm
  rw [hdry] at hr
  rw [runRows_dry cfg.net cfg.tmpl cfg.to_column cfg.vendor_column cfg.rows 0] at hr
  have h1 : cfg.rows.countP (fun row => (resolvedRecipient row cfg.to_column).isSome) = s :=
    congrArg Prod.fst hr
  have h3 : cfg.rows.map (fun row =>
      if (resolvedRecipient row cfg.to_column).isSome
      then (DeliveryResult.Sent, ([] : List Ev))
      else (DeliveryResult.Skipped, [])) = rs :=
    congrArg (fun p => p.2.2) hr
  refine ⟨?_, h1.symm⟩
  intro p hp
  rw [← h3] at hp
  obtain ⟨row, _, hpe⟩ := List.mem_map.mp hp
  rw [← hpe]
  by_cases hb : (resolvedRecipient row cfg.to_column).isSome <;> simp [hb]

/-- Claim C4 witness: the dry-run example configuration. -/
theorem claim_C4_dry_run_witness :
    (∀ p ∈ [(DeliveryResult.Sent, ([] : List Ev)), (DeliveryResult.Skipped, [])],
      p.2 = ([] : List Ev)) ∧
    (1 : Nat) = exampleCfg.rows.countP
      (fun row => (resolvedRecipient row exampleCfg.to_column).isSome) :=
  claim_C4_dry_run exampleCfg 1 1
    [(DeliveryResult.Sent, []), (DeliveryResult.Skipped, [])] 1 rfl rfl

/-- Claim C5: every built message's subject is the fixed pattern embedding
the vendor name (default "Unknown Vendor") and the row's flag (default
empty); in particular the Acme/RED row renders the literal example. -/
theorem claim_C5_subject :
    (∀ (tmpl : String) (row : Row) (toCol vendorCol : String) (m : RenderedMessage),
      build tmpl row toCol vendorCol = Except.ok m →
      m.subject = "Action Required Vendor Performance "
        ++ Row.getD row vendorCol "Unknown Vendor"
        ++ " Flag " ++ Row.getD row "flag" "")
    ∧ subjectOf exRowA "vendor" = "Action Required Vendor Performance Acme Flag RED" := by
  constructor
  · intro tmpl row toCol vendorCol m hm
    simp only [build] at hm
    rcases h : resolvedRecipient row toCol with _ | a
    · rw [h] at hm; exact Except.noConfusion hm
    · rw [h] at hm
      injection hm with hm'
      rw [← hm']
      rfl
  · rfl

/-- Claim C5 witness: the message built from the Acme/RED row. -/
theorem claim_C5_subject_witness :
    (RenderedMessage.mk "a@x" (subjectOf exRowA "vendor") (bodyOf exRowA "vendor" "t")).subject
      = "Action Required Vendor Performance "
        ++ Row.getD exRowA "vendor" "Unknown Vendor"
        ++ " Flag " ++ Row.getD exRowA "flag" "" :=
  claim_C5_subject.1 "t" exRowA "contact_email" "vendor"
    (RenderedMessage.mk "a@x" (subjectOf exRowA "vendor") (bodyOf exRowA "vendor" "t")) rfl

/-- Claim C6 counterexample: substitution is not idempotent. On the
template text consisting of two dollars followed by the word vendor, one
pass yields a single dollar followed by vendor (the escaped delimiter), and
a second pass substitutes that newly formed placeholder with Acme. -/
theorem claim_C6_idempotent_counterexample :
    ¬ (safeSubstitute (varsOf exRowA "vendor")
          (safeSubstitute (varsOf exRowA "vendor") "$$vendor")
        = safeSubstitute (varsOf exRowA "vendor") "$$vendor") := by
  decide

/-- Claim C6 (amended): substitution over the fixed variable set is total
by construction and tolerant — any `$ident` placeholder occurrence in the
body whose identifier is outside the set (after a self-contained prefix,
not extended by what follows) is left verbatim while the rest of the body
renders as usual — but it is not idempotent in general (an escaped double
dollar, or a substituted value containing a dollar, is re-interpreted by a
second pass); a second application leaves the result unchanged whenever the
first result contains no dollar character. -/
theorem claim_C6_tolerant_conditional_idempotent :
    (∀ (row : Row) (vendorCol : String) (pre post : List Char) (c : Char) (cs : List Char),
      scanState Mode.norm pre = Mode.norm →
      isIdStart c = true → (∀ x ∈ cs, isIdChar x = true) →
      (∀ p0 tl, post = p0 :: tl → isIdChar p0 = false) →
      varsOf row vendorCol (String.mk (c :: cs)) = none →
      safeSubstitute (varsOf row vendorCol) (String.mk (pre ++ ('$' :: c :: cs) ++ post))
        = String.mk (scan (varsOf row vendorCol) Mode.norm pre
            ++ ('$' :: c :: cs) ++ scan (varsOf row vendorCol) Mode.norm post)) ∧
    (∀ (m : String → Option String) (tmpl : String),
      '$' ∉ (safeSubstitute m tmpl).data →
      safeSubstitute m (safeSubstitute m tmpl) = safeSubstitute m tmpl) := by
  constructor
  · intro row vendorCol pre post c cs hpre h1 h2 hpost hm
    unfold safeSubstitute
    exact congrArg String.mk (scan_tolerant_ctx _ pre post c cs hpre h1 h2 hpost hm)
  · intro m tmpl h
    unfold safeSubstitute at h ⊢
    exact congrArg String.mk (scan_norm_no_dollar m _ (by simpa using h))

/-- Claim C6 amended witness: in a body with surrounding text, the unknown
placeholder `name` is left verbatim; and a dollar-free substitution result
is a fixed point. -/
theorem claim_C6_tolerant_conditional_idempotent_witness :
    safeSubstitute (varsOf exRowA "vendor") "Dear $name," = "Dear $name," ∧
    safeSubstitute (varsOf exRowA "vendor")
        (safeSubstitute (varsOf exRowA "vendor") "hi $vendor")
      = safeSubstitute (varsOf exRowA "vendor") "hi $vendor" :=
  ⟨claim_C6_tolerant_conditional_idempotent.1 exRowA "vendor" "Dear ".data [','] 'n'
      ['a', 'm', 'e'] rfl (by decide) (by decide)
      (fun p0 tl h => by cases h; decide) (by decide),
    claim_C6_tolerant_conditional_idempotent.2 (varsOf exRowA "vendor") "hi $vendor"
      (by decide)⟩

/-- Claim C7: when dry-run is not enabled and any required SMTP setting is
missing, or the input or template file is missing, the run aborts with exit
code 2 before processing any row (no counters, no row results). -/
theorem claim_C7_startup_abort :
    ∀ cfg : Config, dryRunOf cfg = false →
      (truthy cfg.smtp_host = false ∨ truthy cfg.smtp_user = false ∨
       truthy cfg.smtp_pass = false ∨ cfg.input_exists = false ∨
       cfg.template_exists = false) →
      main cfg = RunOutcome.exited 2 := by
  intro cfg hdry h
  simp only [main, hdry]
  rcases h with h | h | h | h | h <;> simp [h]

/-- Claim C7 witness: no SMTP settings, dry-run off. -/
theorem claim_C7_startup_abort_witness :
    main exampleCfgNoSmtp = RunOutcome.exited 2 :=
  claim_C7_startup_abort exampleCfgNoSmtp rfl (Or.inl rfl)

/-- Claim C8: for every run that reaches row processing, the exit code is 1
exactly when some row ended Skipped or Failed and 0 exactly when all rows
were Sent; the 2-row dry-run example (valid recipient, empty recipient)
finishes with sent 1, failed 1, exit code 1. -/
theorem claim_C8_exit_code :
    (∀ (cfg : Config) (s f : Nat) (rs : List (DeliveryResult × List Ev)) (c : Nat),
      main cfg = RunOutcome.finished s f rs c →
      ((c = 1 ↔ ∃ p ∈ rs, p.1 = DeliveryResult.Skipped ∨ p.1 = DeliveryResult.Failed) ∧
       (c = 0 ↔ ∀ p ∈ rs, p.1 = DeliveryResult.Sent)))
    ∧ main exampleCfg
        = RunOutcome.finished 1 1
            [(DeliveryResult.Sent, []), (DeliveryResult.Skipped, [])] 1 := by
  constructor
  · intro cfg s f rs c hm
    obtain ⟨hr, hc⟩ := main_finished_inv cfg s f rs c hm
    obtain ⟨-, -, L3⟩ := runRows_counters (dryRunOf cfg) cfg.net cfg.tmpl
      cfg.to_column cfg.vendor_column cfg.rows 0
    rw [hr] at L3
    simp only at L3
    subst hc
    by_cases hf : f = 0
    · have hall := L3.mp hf
      rw [hf]
      simp only [lt_irrefl, if_false]
      constructor
      · constructor
        · intro h01; exact absurd h01 (by norm_num)
        · rintro ⟨p, hp, hpc⟩
          exact absurd ((not_sent_iff p.1).mpr hpc) (by simp [hall p hp])
      · exact iff_of_true trivial hall
    · have hpos : 0 < f := Nat.pos_of_ne_zero hf
      rw [if_pos hpos]
      constructor
      · constructor
        · intro _
          have hne : ¬ ∀ p ∈ rs, p.1 = DeliveryResult.Sent := fun hall => hf (L3.mpr hall)
          push_neg at hne
          obtain ⟨p, hp, hpne⟩ := hne
          exact ⟨p, hp, (not_sent_iff p.1).mp hpne⟩
        · intro _; rfl
      · constructor
        · intro h10; exact absurd h10 (by norm_num)
        · intro hall; exact absurd (L3.mpr hall) hf
  · rfl

/-- Claim C8 witness: the general exit-code equivalence at the concrete
2-row dry-run example. -/
theorem claim_C8_exit_code_witness :
    (((1 : Nat) = 1 ↔ ∃ p ∈ [(DeliveryResult.Sent, ([] : List Ev)), (DeliveryResult.Skipped, [])],
        p.1 = DeliveryResult.Skipped ∨ p.1 = DeliveryResult.Failed) ∧
     ((1 : Nat) = 0 ↔ ∀ p ∈ [(DeliveryResult.Sent, ([] : List Ev)), (DeliveryResult.Skipped, [])],
        p.1 = DeliveryResult.Sent)) :=
  claim_C8_exit_code.1 exampleCfg 1 1
    [(DeliveryResult.Sent, []), (DeliveryResult.Skipped, [])] 1 rfl

/-- Claim C10: every run that reaches row processing has each row increment
exactly one counter, so sent plus failed equals the number of rows. -/
theorem claim_C10_counters_partition :
    ∀ (cfg : Config) (s f : Nat) (rs : List (DeliveryResult × List Ev)) (c : Nat),
      main cfg = RunOutcome.finished s f rs c → s + f = cfg.rows.length := by
  intro cfg s f rs c hm
  obtain ⟨hr, -⟩ := main_finished_inv cfg s f rs c hm
  obtain ⟨L1, -, -⟩ := runRows_counters (dryRunOf cfg) cfg.net cfg.tmpl
    cfg.to_column cfg.vendor_column cfg.rows 0
  rw [hr] at L1
  simpa using L1

/-- Claim C10 witness: the 2-row example has sent 1 plus failed 1 equal to
its 2 rows. -/
theorem claim_C10_counters_partition_witness :
    (1 : Nat) + 1 = exampleCfg.rows.length :=
  claim_C10_counters_partition exampleCfg 1 1
    [(DeliveryResult.Sent, []), (DeliveryResult.Skipped, [])] 1 rfl

end SendAlerts
